import Mathlib

/-!
# imap2gmail-go: the mailbox synchronisation engine (imapstuff.go)

A shallow embedding of `imapstuff.go`.  The program talks to three external
collaborators (the IMAP client library, the importer `GmailImport` and the
notification sink `SendEmail`).  Every function of the source is embedded as a
pure function that receives the answers of the collaborators as data and
returns its Go result together with the list of external calls it issued, in
program order.

Modelling decisions:
* a goroutine that performs one request and hands the result over a one-slot channel
  is a synchronous call; a `Fetch` that returns an error reaches `log.Fatalf`, which
  ends the process (`Outcome.exit`);
* a nil pointer dereference is a panic (`Outcome.panic`), which only the deferred
  function of `ImapLoop` recovers;
* the outer loop of `ImapLoop` does not terminate by itself, so it is run for a given
  number of iterations (`Outcome.unfinished` when they are used up);
* a send on the watchdog channel completes, blocks for ever, or panics on a closed
  channel, as the owner of the channel decides (`WdogReply`); only a completed send is
  recorded as a call;
* log lines are not modelled.
-/

namespace Imap2Gmail

/-! ## Data model -/

/-- Go `error` value: `none` is nil, `some s` is an error whose text is `s`. -/
abbrev GoError := Option String

/-- Raw message content, one natural number per byte. -/
abbrev Bytes := List Nat

/-- Sequence set built by `new(imap.SeqSet)` followed by `AddNum`: the numbers added. -/
abbrev SeqSet := List Nat

/-- Go conversion `uint32(x)` of an integer: reduction modulo 2^32. -/
def uint32 (x : Int) : Nat := (x % 4294967296).toNat

/-- Modelled from the spec: the configuration record `Conf.ConfImap`, whose declaration is
outside imapstuff.go (configuration surface: server host, port, credential pair,
inbox, moved and quarantine folder names, maximum accepted message size in bytes,
idle-wait timeout). The numeric options are integers of the configuration file: the
code formats `Port` with `strconv.Itoa` and converts `MaxEmailSize` with `uint32(...)`. -/
structure ConfImap where
  Server : String
  Port : Int
  User : String
  Password : String
  Folder : String
  FolderMoved : String
  FolderQuarantine : String
  MaxEmailSize : Int
  IdleTimeout : Int

/-- Fetch items requested by the pipeline; `FetchBodySection` is `section.FetchItem()` of an empty section. -/
inductive FetchItem
  | FetchEnvelope
  | FetchFlags
  | FetchRFC822Size
  | FetchBodySection
  deriving DecidableEq, Repr

/-- Flag operations of `imap.FormatFlagsOp`. -/
inductive FlagsOp
  | SetFlags
  | AddFlags
  | RemoveFlags
  deriving DecidableEq, Repr

/-- The flag `imap.DeletedFlag`. -/
def DeletedFlag : String := "\\Deleted"

/-- One external call issued by the program, with its arguments.
`HandleFirstMsg` marks the entry into `imapHandleFirstMsg` and carries its `mId` argument. -/
inductive Call
  | DialTLS (addr : String)
  | Login (user password : String)
  | Logout
  | ListMailboxes (ref name : String)
  | Select (folder : String) (readOnly : Bool)
  | Search (withoutFlags : List String)
  | Fetch (seqset : SeqSet) (items : List FetchItem)
  | Copy (seqset : SeqSet) (dest : String)
  | Store (seqset : SeqSet) (op : FlagsOp) (silent : Bool) (flags : List String)
  | Expunge
  | SendEmail (subject body : String)
  | GmailImport (raw : Bytes)
  | IdleWithFallback
  | StopIdle
  | WdogSend (v : GoError)
  | HandleFirstMsg (mId : Nat)
  deriving DecidableEq, Repr

/-- Envelope fields read by the pipeline. -/
structure ImapEnvelope where
  Subject : String
  MessageId : String
  deriving DecidableEq, Repr

/-- The literal returned by `msg.GetBody`: its declared length, the bytes one `Read`
delivers, and the error that `Read` returns. -/
structure ImapLiteral where
  Len : Nat
  data : Bytes
  readErr : GoError
  deriving DecidableEq, Repr

/-- A fetched message: `Envelope` is a pointer (nil is `none`), `Size` is a uint32,
`Body` is the result of `GetBody(section)` (nil is `none`). -/
structure ImapMessage where
  Envelope : Option ImapEnvelope
  Size : Nat
  Body : Option ImapLiteral
  deriving DecidableEq, Repr

/-- `r.Read(p)` with `len(p) = n`: at most `n` bytes are copied into the zeroed buffer;
returns the count, the buffer and the error. -/
def ImapLiteral.Read (r : ImapLiteral) (n : Nat) : Nat × Bytes × GoError :=
  let got := r.data.take n
  (got.length, got ++ List.replicate (n - got.length) 0, r.readErr)

/-- What one `c.Fetch` into a one-slot channel yields: `failed` when `Fetch` returns an
error (the goroutine then calls `log.Fatalf`), `closed` when the channel is closed
without a message (the receive yields nil), `message` otherwise. -/
inductive FetchReply
  | failed (err : String)
  | closed
  | message (msg : ImapMessage)
  deriving DecidableEq, Repr

/-- Answers of the server to the three steps of one relocation. -/
structure MoveAnswers where
  Copy : GoError
  Store : GoError
  Expunge : GoError
  deriving DecidableEq, Repr

/-- Answers of the collaborators during one run of `imapHandleFirstMsg`; each external
call is issued at most once per run. -/
structure Answers where
  FetchMeta : FetchReply
  FetchBody : FetchReply
  GmailImport : GoError
  Move : MoveAnswers
  deriving DecidableEq, Repr

/-- How a function call ends: it returns an error value, it panics, the process exits
(`log.Fatalf`), it blocks forever, or the modelled number of loop iterations is used up. -/
inductive Outcome
  | ret (err : GoError)
  | panic (r : String)
  | exit
  | hang
  | unfinished
  deriving DecidableEq, Repr

/-! ## Folder relocation -/

/-- `imapMoveTo`: copy, then add the deleted flag, then expunge; the first error is returned. -/
def imapMoveTo (a : MoveAnswers) (seqset : SeqSet) (targetFolder : String) :
    GoError × List Call :=
  let t1 := [Call.Copy seqset targetFolder]
  match a.Copy with
  | some err => (some err, t1)
  | none =>
    let t2 := t1 ++ [Call.Store seqset FlagsOp.AddFlags false [DeletedFlag]]
    match a.Store with
    | some err => (some err, t2)
    | none =>
      let t3 := t2 ++ [Call.Expunge]
      match a.Expunge with
      | some err => (some err, t3)
      | none => (none, t3)

/-! ## Message intake pipeline -/

/-- The size policy of the pipeline: `mSize > uint32(Conf.ConfImap.MaxEmailSize)`. -/
def tooBig (conf : ConfImap) (mSize : Nat) : Bool :=
  decide (mSize > uint32 conf.MaxEmailSize)

/-- Items of the first fetch. -/
def metaItems : List FetchItem :=
  [FetchItem.FetchEnvelope, FetchItem.FetchFlags, FetchItem.FetchRFC822Size]

/-- Subject line of both quarantine notifications. -/
def quarantineSubject (mID : String) : String :=
  "Moving message to quarantine mid=" ++ mID

/-- Body of the notification sent for an oversize message. -/
def tooBigBody (mSize : Nat) (mSubject : String) : String :=
  "Message too big: " ++ toString mSize ++ "\nsubject=" ++ mSubject

/-- Body of the notification sent when the importer failed. -/
def importErrorBody (err : String) (mSubject : String) : String :=
  "GmailImport error: " ++ err ++ "\nsubject=" ++ mSubject

/-- `imapHandleFirstMsg` for the message number `mId`. -/
def imapHandleFirstMsg (conf : ConfImap) (a : Answers) (mId : Nat) : Outcome × List Call :=
  let seqset : SeqSet := [mId]
  let t1 := [Call.Fetch seqset metaItems]
  match a.FetchMeta with
  | FetchReply.failed _ => (Outcome.exit, t1)
  | FetchReply.closed =>
    (Outcome.ret (some "Couldn\x27t get first message envelope & size"), t1)
  | FetchReply.message msg =>
    match msg.Envelope with
    | none => (Outcome.panic "invalid memory address or nil pointer dereference", t1)
    | some envelope =>
      let mSubject := envelope.Subject
      let mID := envelope.MessageId
      let mSize := msg.Size
      if tooBig conf mSize then
        let t2 := t1 ++ [Call.SendEmail (quarantineSubject mID) (tooBigBody mSize mSubject)]
        let moved := imapMoveTo a.Move seqset conf.FolderQuarantine
        (Outcome.ret moved.1, t2 ++ moved.2)
      else
        let t2 := t1 ++ [Call.Fetch seqset [FetchItem.FetchBodySection]]
        match a.FetchBody with
        | FetchReply.failed _ => (Outcome.exit, t2)
        | FetchReply.closed => (Outcome.ret (some "Couldn\x27t get first message raw"), t2)
        | FetchReply.message msg2 =>
          match msg2.Body with
          | none => (Outcome.ret (some "Server didn\x27t returned message body"), t2)
          | some r =>
            let origlen := r.Len
            let rd := r.Read origlen
            let rlen := rd.1
            let p := rd.2.1
            match rd.2.2 with
            | some err => (Outcome.ret (some err), t2)
            | none =>
              if origlen ≠ rlen then
                (Outcome.ret (some ("read wrong: origlen=" ++ toString origlen ++
                  " and rlen=" ++ toString rlen)), t2)
              else
                let t3 := t2 ++ [Call.GmailImport p]
                match a.GmailImport with
                | some err =>
                  let t4 := t3 ++
                    [Call.SendEmail (quarantineSubject mID) (importErrorBody err mSubject)]
                  let moved := imapMoveTo a.Move seqset conf.FolderQuarantine
                  (Outcome.ret moved.1, t4 ++ moved.2)
                | none =>
                  let moved := imapMoveTo a.Move seqset conf.FolderMoved
                  (Outcome.ret moved.1, t3 ++ moved.2)

/-! ## Idle wait state machine -/

/-- The channel stored in `c.Updates`. -/
inductive UpdatesChan
  | chChUpdates
  deriving DecidableEq, Repr

/-- The fields of `client.Client` that the program writes. -/
structure Client where
  Timeout : Int
  Updates : Option UpdatesChan
  deriving DecidableEq, Repr

/-- One event taken by the `select` of `imapIdleWait`: a change notification on
`chChUpdates`, the firing of `time.After(IdleTimeout)`, or the result of
`IdleWithFallback` arriving on `chIdleres`. -/
inductive IdleEvent
  | update (u : String)
  | timeout
  | idleres (err : GoError)
  deriving DecidableEq, Repr

/-- The `for { select { ... } }` loop of `imapIdleWait` over the events in arrival order.
The first two branches send a stop request and loop; the third returns. When the
events run out before `chIdleres` delivers, the loop stays blocked. -/
def idleSelect : List IdleEvent → Outcome × List Call
  | [] => (Outcome.hang, [])
  | IdleEvent.update _ :: es => ((idleSelect es).1, Call.StopIdle :: (idleSelect es).2)
  | IdleEvent.timeout :: es => ((idleSelect es).1, Call.StopIdle :: (idleSelect es).2)
  | IdleEvent.idleres err :: _ => (Outcome.ret err, [])

/-- `imapIdleWait`: registers the subscription, starts the long-poll, runs the select
loop; the deferred function clears `c.Updates` when the function returns. -/
def imapIdleWait (c : Client) (events : List IdleEvent) : Outcome × Client × List Call :=
  let c1 : Client := { c with Updates := some UpdatesChan.chChUpdates }
  let run := idleSelect events
  match run.1 with
  | Outcome.ret err => (Outcome.ret err, { c1 with Updates := none }, Call.IdleWithFallback :: run.2)
  | o => (o, c1, Call.IdleWithFallback :: run.2)

/-! ## Session manager and synchronisation loop -/

/-- What happens to a send on the watchdog channel: a receiver or a free buffer slot
takes the value, the send blocks for ever, or the channel is closed and the send panics. -/
inductive WdogReply
  | accepted
  | blocked
  | closed
  deriving DecidableEq, Repr

/-- Answers of the collaborators during one run of `ImapLoop` or `ImapTest`.
`Search n` answers the n-th search command, `Intake n i` the i-th pipeline run of
outer iteration `n`, `Idle n` lists the events of the n-th idle wait, `Wdog n` is the
fate of the send `wdog <- nil` of outer iteration `n`. -/
structure Env where
  Dial : GoError
  Login : GoError
  ListRes : GoError
  Select : GoError
  Search : Nat → List Nat
  Intake : Nat → Nat → Answers
  Idle : Nat → List IdleEvent
  Wdog : Nat → WdogReply

/-- `imapGetClient`: dial, set the timeout, log in. -/
def imapGetClient (conf : ConfImap) (env : Env) : Except String Client × List Call :=
  let t1 := [Call.DialTLS (conf.Server ++ ":" ++ toString conf.Port)]
  match env.Dial with
  | some err => (Except.error ("imapGetClient dial: " ++ err), t1)
  | none =>
    let c : Client := { Timeout := 2 * conf.IdleTimeout, Updates := none }
    let t2 := t1 ++ [Call.Login conf.User conf.Password]
    match env.Login with
    | some err => (Except.error ("imapGetClient login: " ++ err), t2)
    | none => (Except.ok c, t2)

/-- `ImapTest`: open a session and list the mailboxes. -/
def ImapTest (conf : ConfImap) (env : Env) : Outcome × List Call :=
  match imapGetClient conf env with
  | (Except.error err, t) => (Outcome.ret (some ("imapTest: " ++ err)), t)
  | (Except.ok _, t) =>
    let t1 := t ++ [Call.ListMailboxes "" "*"]
    match env.ListRes with
    | some err => (Outcome.ret (some ("imapTest: " ++ err)), t1)
    | none => (Outcome.ret none, t1)

/-- The inner loop `for mid := range ids` of `ImapLoop`, given the values `mid` takes.
An error returned by the pipeline is only logged. -/
def handleRange (conf : ConfImap) (answers : Nat → Answers) : List Nat → Outcome × List Call
  | [] => (Outcome.ret none, [])
  | mid :: rest =>
    let run := imapHandleFirstMsg conf (answers mid) (uint32 mid)
    let t := Call.HandleFirstMsg (uint32 mid) :: run.2
    match run.1 with
    | Outcome.ret _ => ((handleRange conf answers rest).1, t ++ (handleRange conf answers rest).2)
    | o => (o, t)

/-- The outer `for` loop of `ImapLoop` from iteration `n` on, for at most `fuel` iterations. -/
def loopFrom (conf : ConfImap) (env : Env) (ids : List Nat) :
    Nat → Nat → Client → Outcome × List Call
  | 0, _, _ => (Outcome.unfinished, [])
  | fuel + 1, n, c =>
    let pass := handleRange conf (env.Intake n) (List.range ids.length)
    match pass.1 with
    | Outcome.ret _ =>
      let w := imapIdleWait c (env.Idle n)
      match w.1 with
      | Outcome.ret (some err) => (Outcome.ret (some err), pass.2 ++ w.2.2)
      | Outcome.ret none =>
        match env.Wdog n with
        | WdogReply.accepted =>
          let next := loopFrom conf env ids fuel (n + 1) w.2.1
          (next.1, pass.2 ++ w.2.2 ++ [Call.WdogSend none] ++ next.2)
        | WdogReply.blocked => (Outcome.hang, pass.2 ++ w.2.2)
        | WdogReply.closed => (Outcome.panic "send on closed channel", pass.2 ++ w.2.2)
      | o => (o, pass.2 ++ w.2.2)
    | o => (o, pass.2)

/-- The body of `ImapLoop` below its deferred recovery. -/
def ImapLoopBody (conf : ConfImap) (env : Env) (fuel : Nat) : Outcome × List Call :=
  match imapGetClient conf env with
  | (Except.error err, t) => (Outcome.ret (some err), t)
  | (Except.ok c, t) =>
    let t1 := t ++ [Call.Select conf.Folder false]
    match env.Select with
    | some err => (Outcome.ret (some err), t1)
    | none =>
      let t2 := t1 ++ [Call.Search ["ALL"]]
      let ids := env.Search 0
      let run := loopFrom conf env ids fuel 0 c
      (run.1, t2 ++ run.2)

/-- `ImapLoop`: the body, with a panic turned into a returned error by the deferred `recover`. -/
def ImapLoop (conf : ConfImap) (env : Env) (fuel : Nat) : Outcome × List Call :=
  let run := ImapLoopBody conf env fuel
  match run.1 with
  | Outcome.panic r => (Outcome.ret (some ("ImapLoop: recovered panic: " ++ r)), run.2)
  | o => (o, run.2)

/-! ## Observations on traces -/

/-- The arguments of the pipeline runs recorded in a trace, in order. -/
def intakeArgs (t : List Call) : List Nat :=
  t.filterMap (fun c => match c with
    | Call.HandleFirstMsg m => some m
    | _ => none)

/-- A call that enters the pipeline, starts the long-poll, or feeds the watchdog. -/
def isLoopMark : Call → Bool
  | Call.HandleFirstMsg _ => true
  | Call.IdleWithFallback => true
  | Call.WdogSend _ => true
  | _ => false

/-- A call of the external importer. -/
def isImport : Call → Bool
  | Call.GmailImport _ => true
  | _ => false

/-- A notification. -/
def isNotification : Call → Bool
  | Call.SendEmail _ _ => true
  | _ => false

/-- A step of a relocation. -/
def isRelocation : Call → Bool
  | Call.Copy _ _ => true
  | Call.Store _ _ _ _ => true
  | Call.Expunge => true
  | _ => false

/-- A fetch of the raw body. -/
def isBodyFetch : Call → Bool
  | Call.Fetch _ items => decide (FetchItem.FetchBodySection ∈ items)
  | _ => false

/-- A search command. -/
def isSearch : Call → Bool
  | Call.Search _ => true
  | _ => false

/-! ## The mail server

The server is an external collaborator.  Its effect on the folders follows the
description of the three relocation steps: copy appends the referenced messages to
the destination and leaves the source untouched, the flag update marks them, expunge
removes every marked message from the selected folder. -/

/-- A message kept by the server: its unique identifier and its deleted flag. -/
structure StoredMsg where
  uid : Nat
  deleted : Bool
  deriving DecidableEq, Repr

/-- The folders of the server and the name of the selected one. -/
structure Mailbox where
  selected : String
  folders : String → List StoredMsg

/-- Position (from 0) that a sequence number denotes in a folder of `len` messages;
go-imap writes the number 0 for the last message. -/
def seqNumIndex (len n : Nat) : Option Nat :=
  if n = 0 then (if len = 0 then none else some (len - 1))
  else if n ≤ len then some (n - 1) else none

/-- Positions denoted by a sequence set. -/
def seqIndices (len : Nat) (seqset : SeqSet) : List Nat :=
  seqset.filterMap (seqNumIndex len)

/-- The message of the selected folder that a sequence number denotes. -/
def Mailbox.msgAt (mb : Mailbox) (n : Nat) : Option StoredMsg :=
  (seqNumIndex (mb.folders mb.selected).length n).bind (fun i => (mb.folders mb.selected)[i]?)

/-- Set the deleted flag at the given positions; `i` is the position of the head. -/
def markDeleted (idxs : List Nat) : Nat → List StoredMsg → List StoredMsg
  | _, [] => []
  | i, m :: ms =>
    (if i ∈ idxs then { m with deleted := true } else m) :: markDeleted idxs (i + 1) ms

/-- Modelled from the spec: the effect of one successful call on the folders of the mail
server, an external collaborator (relocation steps 1 to 3 of the folder relocator). -/
def serverStep (mb : Mailbox) : Call → Mailbox
  | Call.Copy seqset dest =>
    let src := mb.folders mb.selected
    let copies := (seqIndices src.length seqset).filterMap (fun i => src[i]?)
    { mb with folders := fun f => if f = dest then mb.folders f ++ copies else mb.folders f }
  | Call.Store seqset FlagsOp.AddFlags _ flags =>
    if DeletedFlag ∈ flags then
      let src := mb.folders mb.selected
      { mb with folders := fun f =>
          if f = mb.selected then markDeleted (seqIndices src.length seqset) 0 src
          else mb.folders f }
    else mb
  | Call.Expunge =>
    { mb with folders := fun f =>
        if f = mb.selected then (mb.folders f).filter (fun m => !m.deleted) else mb.folders f }
  | _ => mb

/-- Effect of a sequence of successful calls. -/
def serverRun (mb : Mailbox) (t : List Call) : Mailbox :=
  t.foldl serverStep mb

/-- A message with this identifier is in the folder. -/
def Mailbox.holds (mb : Mailbox) (folder : String) (uid : Nat) : Prop :=
  ∃ x ∈ mb.folders folder, x.uid = uid

/-- The event is a change notification or a timeout (not the end of the long-poll). -/
def IdleEvent.requestsStop : IdleEvent → Bool
  | IdleEvent.update _ => true
  | IdleEvent.timeout => true
  | IdleEvent.idleres _ => false

/-- A value sent to the watchdog. -/
def isWdog : Call → Bool
  | Call.WdogSend _ => true
  | _ => false

/-- A call that the pipeline can issue. -/
def isPipelineCall : Call → Bool
  | Call.Fetch _ _ => true
  | Call.SendEmail _ _ => true
  | Call.GmailImport _ => true
  | Call.Copy _ _ => true
  | Call.Store _ _ _ _ => true
  | Call.Expunge => true
  | _ => false

/-- Marks left by one pass over `k` work items followed by one idle wait. -/
def passMarks (k : Nat) : List Call :=
  (List.range k).map (fun i => Call.HandleFirstMsg (uint32 i)) ++ [Call.IdleWithFallback]

/-- Marks left by `n` completed outer iterations over `k` work items. -/
def completedMarks (n k : Nat) : List Call :=
  (List.replicate n (passMarks k ++ [Call.WdogSend none])).flatten

/-- A call that the outer loop can issue after the search. -/
def isLoopCall (c : Call) : Bool :=
  isPipelineCall c || isLoopMark c || decide (c = Call.StopIdle)

/-! ## Concrete scenarios -/

/-- A configuration with a 1000 byte size limit. -/
def conf1000 : ConfImap :=
  { Server := "imap.example.org", Port := 993, User := "u", Password := "p",
    Folder := "INBOX", FolderMoved := "Moved", FolderQuarantine := "Quarantine",
    MaxEmailSize := 1000, IdleTimeout := 60 }

/-- Relocation answers in which every step succeeds. -/
def moveOk : MoveAnswers := { Copy := none, Store := none, Expunge := none }

/-- Relocation answers in which the flag update is refused. -/
def moveStoreFails : MoveAnswers := { Copy := none, Store := some "NO store", Expunge := none }

/-- Envelope of the message used in the scenarios. -/
def envPhotos : ImapEnvelope := { Subject := "Holiday photos", MessageId := "<1@example.org>" }

/-- Metadata of a 5000 byte message. -/
def metaBig : ImapMessage := { Envelope := some envPhotos, Size := 5000, Body := none }

/-- Metadata of a 100 byte message. -/
def metaSmall : ImapMessage := { Envelope := some envPhotos, Size := 100, Body := none }

/-- A three byte body delivered in full. -/
def litAbc : ImapLiteral := { Len := 3, data := [97, 98, 99], readErr := none }

/-- Body fetch result carrying `litAbc`. -/
def bodyAbc : ImapMessage := { Envelope := none, Size := 0, Body := some litAbc }

/-- The server returns a 5000 byte message and every relocation step succeeds. -/
def answersBig : Answers :=
  { FetchMeta := FetchReply.message metaBig, FetchBody := FetchReply.closed,
    GmailImport := none, Move := moveOk }

/-- A 100 byte message that the importer accepts. -/
def answersImported : Answers :=
  { FetchMeta := FetchReply.message metaSmall, FetchBody := FetchReply.message bodyAbc,
    GmailImport := none, Move := moveOk }

/-- A 100 byte message that the importer rejects. -/
def answersRejected : Answers :=
  { FetchMeta := FetchReply.message metaSmall, FetchBody := FetchReply.message bodyAbc,
    GmailImport := some "quota exceeded", Move := moveOk }

/-- A 100 byte message whose body fetch yields nothing. -/
def answersNoBody : Answers :=
  { FetchMeta := FetchReply.message metaSmall, FetchBody := FetchReply.closed,
    GmailImport := none, Move := moveOk }

/-- A server whose inbox holds two messages and whose other folders are empty. -/
def mailboxTwo : Mailbox :=
  { selected := "INBOX",
    folders := fun f => if f = "INBOX" then [⟨11, false⟩, ⟨12, false⟩] else [] }

/-- The dial succeeds and the login is refused. -/
def envLoginFails : Env :=
  { Dial := none, Login := some "bad credentials", ListRes := none, Select := none,
    Search := fun _ => [], Intake := fun _ _ => answersImported, Idle := fun _ => [],
    Wdog := fun _ => WdogReply.accepted }

/-- The search lists the identifiers 7 and 9; the first idle wait fails. -/
def envTwoIds : Env :=
  { Dial := none, Login := none, ListRes := none, Select := none,
    Search := fun _ => [7, 9], Intake := fun _ _ => answersImported,
    Idle := fun _ => [IdleEvent.idleres (some "EOF")],
    Wdog := fun _ => WdogReply.accepted }

/-- The first search lists one identifier; a message arrives during the first idle wait,
so a second search would list two; the second idle wait fails. -/
def envNewMail : Env :=
  { Dial := none, Login := none, ListRes := none, Select := none,
    Search := fun n => if n = 0 then [1] else [1, 2],
    Intake := fun _ _ => answersImported,
    Idle := fun n =>
      if n = 0 then [IdleEvent.update "EXISTS", IdleEvent.idleres none]
      else [IdleEvent.idleres (some "EOF")],
    Wdog := fun _ => WdogReply.accepted }

/-- Metadata of a 5000 byte message without an envelope. -/
def metaBare : ImapMessage := { Envelope := none, Size := 5000, Body := none }

/-- The server returns a 5000 byte message without an envelope. -/
def answersBare : Answers :=
  { FetchMeta := FetchReply.message metaBare, FetchBody := FetchReply.closed,
    GmailImport := none, Move := moveOk }

/-- Two identifiers are listed; the second pipeline run of every pass ends with an error
(empty body fetch); the first idle wait ends with nil, the second fails. -/
def envTwoItems : Env :=
  { Dial := none, Login := none, ListRes := none, Select := none,
    Search := fun _ => [7, 9],
    Intake := fun _ i => if i = 1 then answersNoBody else answersImported,
    Idle := fun n =>
      if n = 0 then [IdleEvent.timeout, IdleEvent.idleres none]
      else [IdleEvent.idleres (some "EOF")],
    Wdog := fun _ => WdogReply.accepted }

/-- One identifier is listed and every idle wait ends with nil, but nothing ever takes a
value from the watchdog channel. -/
def envWdogBlocked : Env :=
  { Dial := none, Login := none, ListRes := none, Select := none,
    Search := fun _ => [1], Intake := fun _ _ => answersImported,
    Idle := fun _ => [IdleEvent.idleres none],
    Wdog := fun _ => WdogReply.blocked }

/-- Two identifiers are listed; the first message has no envelope; every idle wait
would end with nil. -/
def envBareFirst : Env :=
  { Dial := none, Login := none, ListRes := none, Select := none,
    Search := fun _ => [7, 9],
    Intake := fun _ i => if i = 0 then answersBare else answersImported,
    Idle := fun _ => [IdleEvent.idleres none],
    Wdog := fun _ => WdogReply.accepted }

/-- A configuration whose size limit is negative. -/
def confNegative : ConfImap := { conf1000 with MaxEmailSize := -1 }

/-- A configuration whose size limit is 2^32 + 10. -/
def confHuge : ConfImap := { conf1000 with MaxEmailSize := 4294967306 }

/-! ## Theorems -/

/-! ### Folder relocation -/

theorem imapMoveTo_trace_cases (a : MoveAnswers) (seqset : SeqSet) (target : String) :
    (imapMoveTo a seqset target).2 = [Call.Copy seqset target] ∨
    (imapMoveTo a seqset target).2 =
      [Call.Copy seqset target, Call.Store seqset FlagsOp.AddFlags false [DeletedFlag]] ∨
    (imapMoveTo a seqset target).2 =
      [Call.Copy seqset target, Call.Store seqset FlagsOp.AddFlags false [DeletedFlag],
        Call.Expunge] := by
  unfold imapMoveTo
  cases a.Copy <;> cases a.Store <;> cases a.Expunge <;> simp

theorem imapMoveTo_ok (a : MoveAnswers) (seqset : SeqSet) (target : String)
    (h1 : a.Copy = none) (h2 : a.Store = none) (h3 : a.Expunge = none) :
    imapMoveTo a seqset target =
      (none, [Call.Copy seqset target,
        Call.Store seqset FlagsOp.AddFlags false [DeletedFlag], Call.Expunge]) := by
  simp [imapMoveTo, h1, h2, h3]

/-- C3. The relocation issues copy, flag update and expunge in this order, each only
after the earlier ones succeeded; a failing step ends the sequence and its error is
returned; nil is returned exactly when all three steps succeed. -/
theorem imapMoveTo_sequence (a : MoveAnswers) (seqset : SeqSet) (target : String) :
    (∀ e, a.Copy = some e →
      imapMoveTo a seqset target = (some e, [Call.Copy seqset target])) ∧
    (∀ e, a.Copy = none → a.Store = some e →
      imapMoveTo a seqset target =
        (some e, [Call.Copy seqset target,
          Call.Store seqset FlagsOp.AddFlags false [DeletedFlag]])) ∧
    (∀ e, a.Copy = none → a.Store = none → a.Expunge = some e →
      imapMoveTo a seqset target =
        (some e, [Call.Copy seqset target,
          Call.Store seqset FlagsOp.AddFlags false [DeletedFlag], Call.Expunge])) ∧
    (a.Copy = none → a.Store = none → a.Expunge = none →
      imapMoveTo a seqset target =
        (none, [Call.Copy seqset target,
          Call.Store seqset FlagsOp.AddFlags false [DeletedFlag], Call.Expunge])) ∧
    ((imapMoveTo a seqset target).2 <+:
      [Call.Copy seqset target, Call.Store seqset FlagsOp.AddFlags false [DeletedFlag],
        Call.Expunge]) ∧
    ((imapMoveTo a seqset target).1 = none ↔
      a.Copy = none ∧ a.Store = none ∧ a.Expunge = none) := by
  refine ⟨?_, ?_, ?_, ?_, ?_, ?_⟩
  · intro e h; simp [imapMoveTo, h]
  · intro e h1 h2; simp [imapMoveTo, h1, h2]
  · intro e h1 h2 h3; simp [imapMoveTo, h1, h2, h3]
  · intro h1 h2 h3; simp [imapMoveTo, h1, h2, h3]
  · rcases imapMoveTo_trace_cases a seqset target with h | h | h
    · rw [h]; exact ⟨[_, _], rfl⟩
    · rw [h]; exact ⟨[_], rfl⟩
    · rw [h]
  · unfold imapMoveTo
    cases a.Copy <;> cases a.Store <;> cases a.Expunge <;> simp

/-- Witness for C3: a refused flag update ends the relocation after two steps. -/
theorem imapMoveTo_sequence_witness :
    imapMoveTo moveStoreFails [3] "Quarantine" =
      (some "NO store", [Call.Copy [3] "Quarantine",
        Call.Store [3] FlagsOp.AddFlags false [DeletedFlag]]) ∧
    imapMoveTo moveOk [3] "Quarantine" =
      (none, [Call.Copy [3] "Quarantine",
        Call.Store [3] FlagsOp.AddFlags false [DeletedFlag], Call.Expunge]) :=
  ⟨(imapMoveTo_sequence moveStoreFails [3] "Quarantine").2.1 "NO store" rfl rfl,
   (imapMoveTo_sequence moveOk [3] "Quarantine").2.2.2.1 rfl rfl rfl⟩

/-! ### Idle wait -/

theorem idleSelect_done (pre rest : List IdleEvent) (r : GoError)
    (hpre : ∀ e ∈ pre, e.requestsStop = true) :
    idleSelect (pre ++ IdleEvent.idleres r :: rest) =
      (Outcome.ret r, List.replicate pre.length Call.StopIdle) := by
  induction pre with
  | nil => simp [idleSelect]
  | cons e es ih =>
    have hes : ∀ x ∈ es, x.requestsStop = true := fun x hx => hpre x (List.mem_cons_of_mem _ hx)
    have he := hpre e (List.mem_cons_self _ _)
    cases e with
    | update u => simp [idleSelect, ih hes, List.replicate_succ]
    | timeout => simp [idleSelect, ih hes, List.replicate_succ]
    | idleres x => simp [IdleEvent.requestsStop] at he

theorem idleSelect_waiting (pre : List IdleEvent)
    (hpre : ∀ e ∈ pre, e.requestsStop = true) :
    idleSelect pre = (Outcome.hang, List.replicate pre.length Call.StopIdle) := by
  induction pre with
  | nil => simp [idleSelect]
  | cons e es ih =>
    have hes : ∀ x ∈ es, x.requestsStop = true := fun x hx => hpre x (List.mem_cons_of_mem _ hx)
    have he := hpre e (List.mem_cons_self _ _)
    cases e with
    | update u => simp [idleSelect, ih hes, List.replicate_succ]
    | timeout => simp [idleSelect, ih hes, List.replicate_succ]
    | idleres x => simp [IdleEvent.requestsStop] at he

theorem imapIdleWait_ret_clears (c : Client) (events : List IdleEvent) (err : GoError)
    (h : (imapIdleWait c events).1 = Outcome.ret err) :
    (imapIdleWait c events).2.1.Updates = none := by
  unfold imapIdleWait at h ⊢
  cases hrun : (idleSelect events).1 <;> simp [hrun] at h ⊢

/-- C8. After any change notifications and timeouts, the completion of the long-poll
with result r makes the wait return exactly r; each notification or timeout only sends
one stop request, and without the completion the wait has not returned; whenever the
wait returns, `c.Updates` is nil. -/
theorem imapIdleWait_returns_longpoll_result (c : Client) (pre rest : List IdleEvent)
    (r : GoError) (hpre : ∀ e ∈ pre, e.requestsStop = true) :
    imapIdleWait c (pre ++ IdleEvent.idleres r :: rest) =
      (Outcome.ret r, { c with Updates := none },
        Call.IdleWithFallback :: List.replicate pre.length Call.StopIdle) ∧
    (imapIdleWait c pre).1 = Outcome.hang ∧
    (imapIdleWait c pre).2.2 =
      Call.IdleWithFallback :: List.replicate pre.length Call.StopIdle ∧
    (∀ events err, (imapIdleWait c events).1 = Outcome.ret err →
      (imapIdleWait c events).2.1.Updates = none) := by
  refine ⟨?_, ?_, ?_, ?_⟩
  · simp [imapIdleWait, idleSelect_done pre rest r hpre]
  · simp [imapIdleWait, idleSelect_waiting pre hpre]
  · simp [imapIdleWait, idleSelect_waiting pre hpre]
  · intro events err h
    exact imapIdleWait_ret_clears c events err h

/-- Witness for C8: a notification, a timeout, then the long-poll fails. -/
theorem imapIdleWait_returns_longpoll_result_witness :
    imapIdleWait { Timeout := 120, Updates := none }
        ([IdleEvent.update "EXISTS 4", IdleEvent.timeout] ++
          IdleEvent.idleres (some "connection closed") :: []) =
      (Outcome.ret (some "connection closed"), { Timeout := 120, Updates := none },
        Call.IdleWithFallback :: List.replicate 2 Call.StopIdle) :=
  (imapIdleWait_returns_longpoll_result { Timeout := 120, Updates := none }
    [IdleEvent.update "EXISTS 4", IdleEvent.timeout] [] (some "connection closed")
    (by decide)).1

/-! ### The size policy -/

theorem tooBig_iff_mod (conf : ConfImap) (mSize : Nat) :
    tooBig conf mSize = true ↔ (mSize : Int) > conf.MaxEmailSize % 4294967296 := by
  have h0 : 0 ≤ conf.MaxEmailSize % 4294967296 := Int.emod_nonneg _ (by decide)
  simp only [tooBig, uint32, decide_eq_true_eq]
  omega

theorem tooBig_iff_of_range (conf : ConfImap) (mSize : Nat)
    (hlo : 0 ≤ conf.MaxEmailSize) (hhi : conf.MaxEmailSize < 4294967296) :
    tooBig conf mSize = true ↔ (mSize : Int) > conf.MaxEmailSize := by
  rw [tooBig_iff_mod, Int.emod_eq_of_lt hlo hhi]

/-! ### The mail server -/

theorem markDeleted_uid (idxs : List Nat) (l : List StoredMsg) :
    ∀ k x, x ∈ markDeleted idxs k l → ∃ y ∈ l, y.uid = x.uid := by
  induction l with
  | nil => intro k x hx; simp [markDeleted] at hx
  | cons a l ih =>
    intro k x hx
    simp only [markDeleted, List.mem_cons] at hx
    rcases hx with hx | hx
    · refine ⟨a, List.mem_cons_self _ _, ?_⟩
      subst hx
      split <;> rfl
    · obtain ⟨y, hy, hyx⟩ := ih (k + 1) x hx
      exact ⟨y, List.mem_cons_of_mem _ hy, hyx⟩

theorem markDeleted_expunged (l : List StoredMsg) :
    ∀ k i m, l[i]? = some m → (l.map StoredMsg.uid).Nodup →
      ∀ x ∈ (markDeleted [k + i] k l).filter (fun y => !y.deleted), x.uid ≠ m.uid := by
  induction l with
  | nil => intro k i m hm; simp at hm
  | cons a l ih =>
    intro k i m hm hnd x hx
    rw [List.map_cons, List.nodup_cons] at hnd
    cases i with
    | zero =>
      simp only [List.getElem?_cons_zero, Option.some.injEq] at hm
      subst hm
      simp only [markDeleted, Nat.add_zero, List.mem_singleton, if_true, List.filter_cons,
        Bool.not_true] at hx
      simp only [Bool.false_eq_true, if_false, List.mem_filter] at hx
      obtain ⟨y, hy, hyx⟩ := markDeleted_uid [k] l (k + 1) x hx.1
      intro hxa
      exact hnd.1 (List.mem_map.mpr ⟨y, hy, hyx.trans hxa⟩)
    | succ j =>
      simp only [List.getElem?_cons_succ] at hm
      have hml : m ∈ l := List.getElem?_mem hm
      have hk : k + (j + 1) = (k + 1) + j := by omega
      simp only [markDeleted, List.mem_singleton, List.filter_cons] at hx
      have hkne : ¬ (k = k + (j + 1)) := by omega
      simp only [hkne, if_false] at hx
      split at hx
      · rcases List.mem_cons.mp hx with hxa | hxl
        · subst hxa
          intro hxm
          exact hnd.1 (List.mem_map.mpr ⟨m, hml, hxm.symm⟩)
        · rw [hk] at hxl
          exact ih (k + 1) j m hm hnd.2 x hxl
      · rw [hk] at hx
        exact ih (k + 1) j m hm hnd.2 x hx

theorem relocation_effect (mb : Mailbox) (n : Nat) (target : String) (m : StoredMsg)
    (hm : mb.msgAt n = some m)
    (hnd : ((mb.folders mb.selected).map StoredMsg.uid).Nodup)
    (htgt : target ≠ mb.selected) :
    (serverRun mb [Call.Copy [n] target,
        Call.Store [n] FlagsOp.AddFlags false [DeletedFlag], Call.Expunge]).holds target m.uid ∧
    ¬ (serverRun mb [Call.Copy [n] target,
        Call.Store [n] FlagsOp.AddFlags false [DeletedFlag], Call.Expunge]).holds
          mb.selected m.uid := by
  unfold Mailbox.msgAt at hm
  cases hi : seqNumIndex (mb.folders mb.selected).length n with
  | none => simp [hi] at hm
  | some i =>
    simp only [hi, Option.some_bind] at hm
    have hne : ¬ (mb.selected = target) := fun h => htgt h.symm
    constructor
    · refine ⟨m, ?_, rfl⟩
      simp [serverRun, serverStep, seqIndices, hi, hm, htgt]
    · rintro ⟨x, hx, hxu⟩
      simp only [serverRun, serverStep, seqIndices, List.foldl_cons, List.foldl_nil,
        List.filterMap_cons, List.filterMap_nil, hi, List.mem_singleton, if_true,
        hne, if_false] at hx
      have := markDeleted_expunged (mb.folders mb.selected) 0 i m hm hnd x
      simp only [Nat.zero_add] at this
      exact this hx hxu

/-! ### Intake pipeline -/

theorem imapMoveTo_filters (a : MoveAnswers) (seqset : SeqSet) (target : String) :
    (imapMoveTo a seqset target).2.filter isRelocation = (imapMoveTo a seqset target).2 ∧
    (imapMoveTo a seqset target).2.filter isNotification = [] ∧
    (imapMoveTo a seqset target).2.filter isImport = [] ∧
    (imapMoveTo a seqset target).2.filter isBodyFetch = [] ∧
    (imapMoveTo a seqset target).2.filter isLoopMark = [] ∧
    (imapMoveTo a seqset target).2.head? = some (Call.Copy seqset target) ∧
    (∀ s d, Call.Copy s d ∈ (imapMoveTo a seqset target).2 → s = seqset ∧ d = target) := by
  rcases imapMoveTo_trace_cases a seqset target with h | h | h <;> rw [h] <;>
    simp [isRelocation, isNotification, isImport, isBodyFetch, isLoopMark]

theorem serverRun_append (mb : Mailbox) (t u : List Call) :
    serverRun mb (t ++ u) = serverRun (serverRun mb t) u := by
  simp [serverRun, List.foldl_append]

theorem infix_second (w x y z : String) : x.data <:+: (w ++ x ++ y ++ z).data :=
  ⟨w.data, y.data ++ z.data, by simp [String.data_append]⟩

theorem infix_last (x y : String) : y.data <:+: (x ++ y).data :=
  ⟨x.data, [], by simp [String.data_append]⟩

/-- C1, amended. A message whose fetched metadata carries an envelope and a size above the
configured limit (0 <= limit < 2^32) is neither imported nor fetched in full: the pipeline sends one notification whose body
contains the size and the subject, runs the relocation of exactly that message into the
quarantine folder and returns the result of the relocation; when the three steps succeed
the result is nil and the message is in the quarantine folder and not in the inbox. -/
theorem oversize_goes_to_quarantine (conf : ConfImap) (a : Answers) (mId : Nat)
    (msg : ImapMessage) (envelope : ImapEnvelope)
    (hlo : 0 ≤ conf.MaxEmailSize) (hhi : conf.MaxEmailSize < 4294967296)
    (hmeta : a.FetchMeta = FetchReply.message msg)
    (henv : msg.Envelope = some envelope)
    (hbig : (msg.Size : Int) > conf.MaxEmailSize) :
    imapHandleFirstMsg conf a mId =
      (Outcome.ret (imapMoveTo a.Move [mId] conf.FolderQuarantine).1,
        [Call.Fetch [mId] metaItems,
         Call.SendEmail (quarantineSubject envelope.MessageId)
           (tooBigBody msg.Size envelope.Subject)] ++
        (imapMoveTo a.Move [mId] conf.FolderQuarantine).2) ∧
    (imapHandleFirstMsg conf a mId).2.filter isImport = [] ∧
    (imapHandleFirstMsg conf a mId).2.filter isBodyFetch = [] ∧
    (imapHandleFirstMsg conf a mId).2.filter isNotification =
      [Call.SendEmail (quarantineSubject envelope.MessageId)
        (tooBigBody msg.Size envelope.Subject)] ∧
    (toString msg.Size).data <:+: (tooBigBody msg.Size envelope.Subject).data ∧
    envelope.Subject.data <:+: (tooBigBody msg.Size envelope.Subject).data ∧
    (imapHandleFirstMsg conf a mId).2.filter isRelocation =
      (imapMoveTo a.Move [mId] conf.FolderQuarantine).2 ∧
    (imapMoveTo a.Move [mId] conf.FolderQuarantine).2.head? =
      some (Call.Copy [mId] conf.FolderQuarantine) ∧
    (∀ s d, Call.Copy s d ∈ (imapHandleFirstMsg conf a mId).2 →
      s = [mId] ∧ d = conf.FolderQuarantine) ∧
    (a.Move.Copy = none → a.Move.Store = none → a.Move.Expunge = none →
      (imapHandleFirstMsg conf a mId).1 = Outcome.ret none ∧
      ∀ (mb : Mailbox) (m : StoredMsg), mb.msgAt mId = some m →
        ((mb.folders mb.selected).map StoredMsg.uid).Nodup →
        conf.FolderQuarantine ≠ mb.selected →
        (serverRun mb (imapHandleFirstMsg conf a mId).2).holds conf.FolderQuarantine m.uid ∧
        ¬ (serverRun mb (imapHandleFirstMsg conf a mId).2).holds mb.selected m.uid) := by
  have hb : tooBig conf msg.Size = true := (tooBig_iff_of_range conf msg.Size hlo hhi).mpr hbig
  have hrun : imapHandleFirstMsg conf a mId =
      (Outcome.ret (imapMoveTo a.Move [mId] conf.FolderQuarantine).1,
        [Call.Fetch [mId] metaItems,
         Call.SendEmail (quarantineSubject envelope.MessageId)
           (tooBigBody msg.Size envelope.Subject)] ++
        (imapMoveTo a.Move [mId] conf.FolderQuarantine).2) := by
    simp [imapHandleFirstMsg, hmeta, henv, hb]
  obtain ⟨f1, f2, f3, f4, _, f6, f7⟩ := imapMoveTo_filters a.Move [mId] conf.FolderQuarantine
  refine ⟨hrun, ?_, ?_, ?_, ?_, ?_, ?_, f6, ?_, ?_⟩
  · rw [hrun]; simp [List.filter_cons, isImport, f3]
  · rw [hrun]; simp [List.filter_cons, isBodyFetch, metaItems, f4]
  · rw [hrun]; simp [List.filter_cons, isNotification, f2]
  · exact infix_second _ _ _ _
  · exact infix_last _ _
  · rw [hrun]; simp [List.filter_cons, isRelocation, f1]
  · intro s d hmem
    rw [hrun] at hmem
    simp only [List.cons_append, List.nil_append, List.mem_cons] at hmem
    rcases hmem with h | h | h
    · cases h
    · cases h
    · exact f7 s d h
  · intro h1 h2 h3
    have hmv := imapMoveTo_ok a.Move [mId] conf.FolderQuarantine h1 h2 h3
    rw [hrun, hmv]
    refine ⟨rfl, ?_⟩
    intro mb m hm hnd htgt
    have hpre : serverRun mb [Call.Fetch [mId] metaItems,
        Call.SendEmail (quarantineSubject envelope.MessageId)
          (tooBigBody msg.Size envelope.Subject)] = mb := rfl
    simp only [serverRun_append, hpre]
    exact relocation_effect mb mId conf.FolderQuarantine m hm hnd htgt

/-- C1, refuted as stated. A 5000 byte message under a 1000 byte limit whose fetched
metadata carries no envelope: the pipeline panics when it reads the subject, before the
size gate, after the metadata fetch alone; no notification is sent and no relocation
step is issued. -/
theorem oversize_without_envelope_panics :
    (0 ≤ conf1000.MaxEmailSize ∧ conf1000.MaxEmailSize < 4294967296) ∧
    answersBare.FetchMeta = FetchReply.message metaBare ∧
    (metaBare.Size : Int) > conf1000.MaxEmailSize ∧
    (∃ r, (imapHandleFirstMsg conf1000 answersBare 2).1 = Outcome.panic r) ∧
    (imapHandleFirstMsg conf1000 answersBare 2).2 = [Call.Fetch [2] metaItems] ∧
    (imapHandleFirstMsg conf1000 answersBare 2).2.filter isNotification = [] ∧
    (imapHandleFirstMsg conf1000 answersBare 2).2.filter isRelocation = [] :=
  ⟨⟨by decide, by decide⟩, rfl, by decide, ⟨_, rfl⟩, rfl, by decide, by decide⟩

/-- Witness for the amended C1: a 5000 byte message under a 1000 byte limit. -/
theorem oversize_goes_to_quarantine_witness :
    (0 ≤ conf1000.MaxEmailSize ∧ conf1000.MaxEmailSize < 4294967296 ∧
      (metaBig.Size : Int) > conf1000.MaxEmailSize) ∧
    (imapHandleFirstMsg conf1000 answersBig 2).2.filter isImport = [] ∧
    (imapHandleFirstMsg conf1000 answersBig 2).1 = Outcome.ret none ∧
    (serverRun mailboxTwo (imapHandleFirstMsg conf1000 answersBig 2).2).holds
      conf1000.FolderQuarantine 12 ∧
    ¬ (serverRun mailboxTwo (imapHandleFirstMsg conf1000 answersBig 2).2).holds
      mailboxTwo.selected 12 :=
  have h := oversize_goes_to_quarantine conf1000 answersBig 2 metaBig envPhotos
    (by decide) (by decide) rfl rfl (by decide)
  have hs := h.2.2.2.2.2.2.2.2.2 rfl rfl rfl
  ⟨⟨by decide, by decide, by decide⟩, h.2.1, hs.1,
    hs.2 mailboxTwo ⟨12, false⟩ (by decide) (by decide) (by decide)⟩

theorem intake_body_read (conf : ConfImap) (a : Answers) (mId : Nat)
    (msg : ImapMessage) (envelope : ImapEnvelope) (msg2 : ImapMessage) (r : ImapLiteral)
    (hmeta : a.FetchMeta = FetchReply.message msg)
    (henv : msg.Envelope = some envelope)
    (hgate : tooBig conf msg.Size = false)
    (hbody : a.FetchBody = FetchReply.message msg2)
    (hlit : msg2.Body = some r)
    (hread : (r.Read r.Len).2.2 = none)
    (hlen : (r.Read r.Len).1 = r.Len) :
    imapHandleFirstMsg conf a mId =
      match a.GmailImport with
      | some err =>
        (Outcome.ret (imapMoveTo a.Move [mId] conf.FolderQuarantine).1,
          [Call.Fetch [mId] metaItems, Call.Fetch [mId] [FetchItem.FetchBodySection],
           Call.GmailImport (r.Read r.Len).2.1,
           Call.SendEmail (quarantineSubject envelope.MessageId)
             (importErrorBody err envelope.Subject)] ++
          (imapMoveTo a.Move [mId] conf.FolderQuarantine).2)
      | none =>
        (Outcome.ret (imapMoveTo a.Move [mId] conf.FolderMoved).1,
          [Call.Fetch [mId] metaItems, Call.Fetch [mId] [FetchItem.FetchBodySection],
           Call.GmailImport (r.Read r.Len).2.1] ++
          (imapMoveTo a.Move [mId] conf.FolderMoved).2) := by
  unfold imapHandleFirstMsg
  simp only [hmeta, henv, hgate, hbody, hlit, hread, hlen]
  cases a.GmailImport <;> simp

theorem read_full (r : ImapLiteral) (hlen : (r.Read r.Len).1 = r.Len) :
    (r.Read r.Len).2.1 = r.data.take r.Len := by
  simp only [ImapLiteral.Read] at hlen ⊢
  simp [hlen]

/-- C2. For a message with an envelope that passes the size gate and whose body is read
in full, the importer is called once, on the bytes read. If it succeeds, no notification is sent and
the message is relocated to the moved folder; if it fails with error e, one notification
whose body contains e and the subject is sent and the message is relocated to the
quarantine folder. The result of the relocation is returned in both cases, and when its
three steps succeed the message is in the target folder and not in the inbox. -/
theorem importer_outcome_routes (conf : ConfImap) (a : Answers) (mId : Nat)
    (msg : ImapMessage) (envelope : ImapEnvelope) (msg2 : ImapMessage) (r : ImapLiteral)
    (hmeta : a.FetchMeta = FetchReply.message msg)
    (henv : msg.Envelope = some envelope)
    (hgate : tooBig conf msg.Size = false)
    (hbody : a.FetchBody = FetchReply.message msg2)
    (hlit : msg2.Body = some r)
    (hread : (r.Read r.Len).2.2 = none)
    (hlen : (r.Read r.Len).1 = r.Len) :
    (imapHandleFirstMsg conf a mId).2.filter isImport = [Call.GmailImport (r.data.take r.Len)] ∧
    (a.GmailImport = none →
      imapHandleFirstMsg conf a mId =
        (Outcome.ret (imapMoveTo a.Move [mId] conf.FolderMoved).1,
          [Call.Fetch [mId] metaItems, Call.Fetch [mId] [FetchItem.FetchBodySection],
           Call.GmailImport (r.data.take r.Len)] ++
          (imapMoveTo a.Move [mId] conf.FolderMoved).2) ∧
      (imapHandleFirstMsg conf a mId).2.filter isNotification = [] ∧
      (imapHandleFirstMsg conf a mId).2.filter isRelocation =
        (imapMoveTo a.Move [mId] conf.FolderMoved).2 ∧
      (∀ s d, Call.Copy s d ∈ (imapHandleFirstMsg conf a mId).2 →
        s = [mId] ∧ d = conf.FolderMoved)) ∧
    (∀ e, a.GmailImport = some e →
      imapHandleFirstMsg conf a mId =
        (Outcome.ret (imapMoveTo a.Move [mId] conf.FolderQuarantine).1,
          [Call.Fetch [mId] metaItems, Call.Fetch [mId] [FetchItem.FetchBodySection],
           Call.GmailImport (r.data.take r.Len),
           Call.SendEmail (quarantineSubject envelope.MessageId)
             (importErrorBody e envelope.Subject)] ++
          (imapMoveTo a.Move [mId] conf.FolderQuarantine).2) ∧
      (imapHandleFirstMsg conf a mId).2.filter isNotification =
        [Call.SendEmail (quarantineSubject envelope.MessageId)
          (importErrorBody e envelope.Subject)] ∧
      e.data <:+: (importErrorBody e envelope.Subject).data ∧
      envelope.Subject.data <:+: (importErrorBody e envelope.Subject).data ∧
      (imapHandleFirstMsg conf a mId).2.filter isRelocation =
        (imapMoveTo a.Move [mId] conf.FolderQuarantine).2 ∧
      (∀ s d, Call.Copy s d ∈ (imapHandleFirstMsg conf a mId).2 →
        s = [mId] ∧ d = conf.FolderQuarantine)) ∧
    (a.Move.Copy = none → a.Move.Store = none → a.Move.Expunge = none →
      (imapHandleFirstMsg conf a mId).1 = Outcome.ret none ∧
      ∀ (mb : Mailbox) (m : StoredMsg), mb.msgAt mId = some m →
        ((mb.folders mb.selected).map StoredMsg.uid).Nodup →
        conf.FolderMoved ≠ mb.selected → conf.FolderQuarantine ≠ mb.selected →
        (serverRun mb (imapHandleFirstMsg conf a mId).2).holds
          (if a.GmailImport = none then conf.FolderMoved else conf.FolderQuarantine) m.uid ∧
        ¬ (serverRun mb (imapHandleFirstMsg conf a mId).2).holds mb.selected m.uid) := by
  have hrun := intake_body_read conf a mId msg envelope msg2 r hmeta henv hgate hbody hlit
    hread hlen
  rw [read_full r hlen] at hrun
  obtain ⟨q1, q2, q3, _, _, _, q7⟩ := imapMoveTo_filters a.Move [mId] conf.FolderQuarantine
  obtain ⟨m1, m2, m3, _, _, _, m7⟩ := imapMoveTo_filters a.Move [mId] conf.FolderMoved
  refine ⟨?_, ?_, ?_, ?_⟩
  · rw [hrun]
    cases a.GmailImport <;> simp [List.filter_cons, isImport, q3, m3]
  · intro hok
    rw [hok] at hrun
    simp only at hrun
    refine ⟨hrun, ?_, ?_, ?_⟩
    · rw [hrun]; simp [List.filter_cons, isNotification, m2]
    · rw [hrun]; simp [List.filter_cons, isRelocation, m1]
    · intro s d hmem
      rw [hrun] at hmem
      simp only [List.cons_append, List.nil_append, List.mem_cons] at hmem
      rcases hmem with h | h | h | h
      · cases h
      · cases h
      · cases h
      · exact m7 s d h
  · intro e he
    rw [he] at hrun
    simp only at hrun
    refine ⟨hrun, ?_, infix_second _ _ _ _, infix_last _ _, ?_, ?_⟩
    · rw [hrun]; simp [List.filter_cons, isNotification, q2]
    · rw [hrun]; simp [List.filter_cons, isRelocation, q1]
    · intro s d hmem
      rw [hrun] at hmem
      simp only [List.cons_append, List.nil_append, List.mem_cons] at hmem
      rcases hmem with h | h | h | h | h
      · cases h
      · cases h
      · cases h
      · cases h
      · exact q7 s d h
  · intro h1 h2 h3
    have hq := imapMoveTo_ok a.Move [mId] conf.FolderQuarantine h1 h2 h3
    have hm := imapMoveTo_ok a.Move [mId] conf.FolderMoved h1 h2 h3
    rw [hrun]
    cases hi : a.GmailImport with
    | none =>
      simp only [hm, if_true]
      refine ⟨trivial, ?_⟩
      intro mb m hmsg hnd htm _
      have hpre : serverRun mb [Call.Fetch [mId] metaItems,
          Call.Fetch [mId] [FetchItem.FetchBodySection],
          Call.GmailImport (r.data.take r.Len)] = mb := rfl
      simp only [serverRun_append, hpre]
      exact relocation_effect mb mId conf.FolderMoved m hmsg hnd htm
    | some e =>
      simp only [hq, reduceCtorEq, if_false]
      refine ⟨trivial, ?_⟩
      intro mb m hmsg hnd _ htq
      have hpre : serverRun mb [Call.Fetch [mId] metaItems,
          Call.Fetch [mId] [FetchItem.FetchBodySection],
          Call.GmailImport (r.data.take r.Len),
          Call.SendEmail (quarantineSubject envelope.MessageId)
            (importErrorBody e envelope.Subject)] = mb := rfl
      simp only [serverRun_append, hpre]
      exact relocation_effect mb mId conf.FolderQuarantine m hmsg hnd htq

/-- Witness for C2: a 100 byte message, once accepted and once rejected by the importer. -/
theorem importer_outcome_routes_witness :
    (tooBig conf1000 metaSmall.Size = false ∧ (litAbc.Read litAbc.Len).1 = litAbc.Len) ∧
    imapHandleFirstMsg conf1000 answersImported 1 =
      (Outcome.ret none,
        [Call.Fetch [1] metaItems, Call.Fetch [1] [FetchItem.FetchBodySection],
         Call.GmailImport [97, 98, 99], Call.Copy [1] "Moved",
         Call.Store [1] FlagsOp.AddFlags false [DeletedFlag], Call.Expunge]) ∧
    (imapHandleFirstMsg conf1000 answersRejected 1).2.filter isNotification =
      [Call.SendEmail "Moving message to quarantine mid=<1@example.org>"
        "GmailImport error: quota exceeded\nsubject=Holiday photos"] ∧
    (imapHandleFirstMsg conf1000 answersRejected 1).2.filter isRelocation =
      [Call.Copy [1] "Quarantine", Call.Store [1] FlagsOp.AddFlags false [DeletedFlag],
       Call.Expunge] :=
  have hok := importer_outcome_routes conf1000 answersImported 1 metaSmall envPhotos bodyAbc
    litAbc rfl rfl (by decide) rfl rfl rfl rfl
  have hrej := importer_outcome_routes conf1000 answersRejected 1 metaSmall envPhotos bodyAbc
    litAbc rfl rfl (by decide) rfl rfl rfl rfl
  ⟨⟨by decide, rfl⟩, (hok.2.1 rfl).1, (hrej.2.2.1 "quota exceeded" rfl).2.1,
    (hrej.2.2.1 "quota exceeded" rfl).2.2.2.2.1⟩

theorem intake_calls (conf : ConfImap) (a : Answers) (mId : Nat) :
    (imapHandleFirstMsg conf a mId).2.all isPipelineCall = true := by
  obtain ⟨fm, fb, gi, ⟨cp, st, ex⟩⟩ := a
  cases fm with
  | failed e => simp [imapHandleFirstMsg, isPipelineCall]
  | closed => simp [imapHandleFirstMsg, isPipelineCall]
  | message msg =>
    cases henv : msg.Envelope with
    | none => simp [imapHandleFirstMsg, isPipelineCall, henv]
    | some envelope =>
      cases hbig : tooBig conf msg.Size with
      | true =>
        cases cp <;> cases st <;> cases ex <;>
          simp [imapHandleFirstMsg, imapMoveTo, isPipelineCall, henv, hbig]
      | false =>
        cases fb with
        | failed e => simp [imapHandleFirstMsg, isPipelineCall, henv, hbig]
        | closed => simp [imapHandleFirstMsg, isPipelineCall, henv, hbig]
        | message msg2 =>
          cases hlit : msg2.Body with
          | none => simp [imapHandleFirstMsg, isPipelineCall, henv, hbig, hlit]
          | some r =>
            cases hre : (r.Read r.Len).2.2 with
            | some e => simp [imapHandleFirstMsg, isPipelineCall, henv, hbig, hlit, hre]
            | none =>
              by_cases hlen : r.Len = (r.Read r.Len).1
              · have hlen2 : (r.Read r.Len).1 = r.Len := hlen.symm
                cases gi <;> cases cp <;> cases st <;> cases ex <;>
                  simp [imapHandleFirstMsg, imapMoveTo, isPipelineCall, henv, hbig, hlit,
                    hre, hlen2]
              · simp [imapHandleFirstMsg, isPipelineCall, henv, hbig, hlit, hre, hlen]

theorem intake_filter_nil (conf : ConfImap) (a : Answers) (mId : Nat) (p : Call → Bool)
    (hp : ∀ c, isPipelineCall c = true → p c = false) :
    (imapHandleFirstMsg conf a mId).2.filter p = [] := by
  rw [List.filter_eq_nil_iff]
  intro c hc
  have := List.all_eq_true.mp (intake_calls conf a mId) c hc
  simp [hp c this]

theorem pipeline_not_mark (c : Call) (h : isPipelineCall c = true) : isLoopMark c = false := by
  cases c <;> simp_all [isPipelineCall, isLoopMark]

theorem pipeline_not_wdog (c : Call) (h : isPipelineCall c = true) : isWdog c = false := by
  cases c <;> simp_all [isPipelineCall, isWdog]

theorem pipeline_not_search (c : Call) (h : isPipelineCall c = true) : isSearch c = false := by
  cases c <;> simp_all [isPipelineCall, isSearch]

theorem pipeline_not_logout (c : Call) (h : isPipelineCall c = true) :
    decide (c = Call.Logout) = false := by
  cases c <;> simp_all [isPipelineCall]

/-! ### Idle wait inside the loop -/

theorem idleSelect_trace (events : List IdleEvent) :
    ∀ c ∈ (idleSelect events).2, c = Call.StopIdle := by
  induction events with
  | nil => simp [idleSelect]
  | cons e es ih =>
    cases e with
    | update u => simpa [idleSelect] using ih
    | timeout => simpa [idleSelect] using ih
    | idleres r => simp [idleSelect]

theorem imapIdleWait_outcome (c : Client) (events : List IdleEvent) :
    (imapIdleWait c events).1 = (idleSelect events).1 ∧
    (imapIdleWait c events).2.2 = Call.IdleWithFallback :: (idleSelect events).2 := by
  unfold imapIdleWait
  cases h : (idleSelect events).1 <;> simp [h]

theorem idle_filter_nil (events : List IdleEvent) (p : Call → Bool)
    (hp : p Call.StopIdle = false) : (idleSelect events).2.filter p = [] := by
  rw [List.filter_eq_nil_iff]
  intro c hc
  rw [idleSelect_trace events c hc]
  simp [hp]

/-! ### One pass over the work items -/

theorem handleRange_returns (conf : ConfImap) (answers : Nat → Answers) (mids : List Nat)
    (hret : ∀ i ∈ mids, ∃ err,
      (imapHandleFirstMsg conf (answers i) (uint32 i)).1 = Outcome.ret err) :
    (handleRange conf answers mids).1 = Outcome.ret none ∧
    (handleRange conf answers mids).2.filter isLoopMark =
      mids.map (fun i => Call.HandleFirstMsg (uint32 i)) ∧
    (handleRange conf answers mids).2.filter isWdog = [] := by
  induction mids with
  | nil => simp [handleRange]
  | cons mid rest ih =>
    obtain ⟨err, herr⟩ := hret mid (List.mem_cons_self _ _)
    obtain ⟨i1, i2, i3⟩ := ih (fun i hi => hret i (List.mem_cons_of_mem _ hi))
    have hm := intake_filter_nil conf (answers mid) (uint32 mid) isLoopMark pipeline_not_mark
    have hw := intake_filter_nil conf (answers mid) (uint32 mid) isWdog pipeline_not_wdog
    simp only [handleRange, herr]
    refine ⟨i1, ?_, ?_⟩
    · simp [List.filter_cons, isLoopMark, hm, i2]
    · simp [List.filter_cons, isWdog, hw, i3]

/-! ### The outer loop -/

theorem completedMarks_succ (n k : Nat) :
    completedMarks (n + 1) k = passMarks k ++ [Call.WdogSend none] ++ completedMarks n k := by
  simp [completedMarks, List.replicate_succ]

theorem idle_marks (c : Client) (events : List IdleEvent) :
    (imapIdleWait c events).2.2.filter isLoopMark = [Call.IdleWithFallback] ∧
    (imapIdleWait c events).2.2.filter isWdog = [] := by
  rw [(imapIdleWait_outcome c events).2]
  simp [List.filter_cons, isLoopMark, isWdog, idle_filter_nil events isLoopMark rfl,
    idle_filter_nil events isWdog rfl]

theorem loopFrom_completed (conf : ConfImap) (env : Env) (ids : List Nat)
    (hret : ∀ j i, i < ids.length → ∃ err,
      (imapHandleFirstMsg conf (env.Intake j i) (uint32 i)).1 = Outcome.ret err)
    (hwdog : ∀ j, env.Wdog j = WdogReply.accepted) :
    ∀ n start c, (∀ j, j < n → (idleSelect (env.Idle (start + j))).1 = Outcome.ret none) →
      (loopFrom conf env ids n start c).1 = Outcome.unfinished ∧
      (loopFrom conf env ids n start c).2.filter isLoopMark = completedMarks n ids.length ∧
      (loopFrom conf env ids n start c).2.filter isWdog =
        List.replicate n (Call.WdogSend none) := by
  intro n
  induction n with
  | zero => intro start c _; simp [loopFrom, completedMarks]
  | succ n ih =>
    intro start c hidle
    obtain ⟨p1, p2, p3⟩ := handleRange_returns conf (env.Intake start) (List.range ids.length)
      (fun i hi => hret start i (List.mem_range.mp hi))
    obtain ⟨w1, _⟩ := imapIdleWait_outcome c (env.Idle start)
    obtain ⟨w3, w4⟩ := idle_marks c (env.Idle start)
    have h0 : (idleSelect (env.Idle start)).1 = Outcome.ret none := by
      simpa using hidle 0 (Nat.succ_pos n)
    rw [h0] at w1
    obtain ⟨n1, n2, n3⟩ := ih (start + 1) (imapIdleWait c (env.Idle start)).2.1
      (fun j hj => by
        have := hidle (j + 1) (by omega)
        rwa [show start + (j + 1) = start + 1 + j by omega] at this)
    rw [loopFrom]
    simp only [p1, w1, hwdog start]
    refine ⟨n1, ?_, ?_⟩
    · simp [List.filter_append, p2, w3, n2, completedMarks_succ, passMarks, isLoopMark]
    · simp [List.filter_append, p3, w4, n3, List.replicate_succ, isWdog]

theorem loopFrom_fails (conf : ConfImap) (env : Env) (ids : List Nat)
    (hret : ∀ j i, i < ids.length → ∃ err,
      (imapHandleFirstMsg conf (env.Intake j i) (uint32 i)).1 = Outcome.ret err)
    (hwdog : ∀ j, env.Wdog j = WdogReply.accepted) :
    ∀ n start c fuel e,
      (∀ j, j < n → (idleSelect (env.Idle (start + j))).1 = Outcome.ret none) →
      (idleSelect (env.Idle (start + n))).1 = Outcome.ret (some e) → n < fuel →
      (loopFrom conf env ids fuel start c).1 = Outcome.ret (some e) ∧
      (loopFrom conf env ids fuel start c).2.filter isLoopMark =
        completedMarks n ids.length ++ passMarks ids.length ∧
      (loopFrom conf env ids fuel start c).2.filter isWdog =
        List.replicate n (Call.WdogSend none) := by
  intro n
  induction n with
  | zero =>
    intro start c fuel e _ hfail hfuel
    obtain ⟨fuel, rfl⟩ : ∃ f, fuel = f + 1 := ⟨fuel - 1, by omega⟩
    obtain ⟨p1, p2, p3⟩ := handleRange_returns conf (env.Intake start) (List.range ids.length)
      (fun i hi => hret start i (List.mem_range.mp hi))
    obtain ⟨w1, _⟩ := imapIdleWait_outcome c (env.Idle start)
    obtain ⟨w3, w4⟩ := idle_marks c (env.Idle start)
    rw [Nat.add_zero] at hfail
    rw [hfail] at w1
    rw [loopFrom]
    simp only [p1, w1]
    refine ⟨trivial, ?_, ?_⟩
    · simp [List.filter_append, p2, w3, completedMarks, passMarks]
    · simp [List.filter_append, p3, w4]
  | succ n ih =>
    intro start c fuel e hidle hfail hfuel
    obtain ⟨fuel, rfl⟩ : ∃ f, fuel = f + 1 := ⟨fuel - 1, by omega⟩
    obtain ⟨p1, p2, p3⟩ := handleRange_returns conf (env.Intake start) (List.range ids.length)
      (fun i hi => hret start i (List.mem_range.mp hi))
    obtain ⟨w1, _⟩ := imapIdleWait_outcome c (env.Idle start)
    obtain ⟨w3, w4⟩ := idle_marks c (env.Idle start)
    have h0 : (idleSelect (env.Idle start)).1 = Outcome.ret none := by
      simpa using hidle 0 (Nat.succ_pos n)
    rw [h0] at w1
    obtain ⟨n1, n2, n3⟩ := ih (start + 1) (imapIdleWait c (env.Idle start)).2.1 fuel e
      (fun j hj => by
        have := hidle (j + 1) (by omega)
        rwa [show start + (j + 1) = start + 1 + j by omega] at this)
      (by rwa [show start + (n + 1) = start + 1 + n by omega] at hfail)
      (by omega)
    rw [loopFrom]
    simp only [p1, w1, hwdog start]
    refine ⟨n1, ?_, ?_⟩
    · simp [List.filter_append, p2, w3, n2, completedMarks_succ, passMarks, isLoopMark]
    · simp [List.filter_append, p3, w4, n3, List.replicate_succ, isWdog]

theorem loopFrom_ret_from_idle (conf : ConfImap) (env : Env) (ids : List Nat)
    (hret : ∀ j i, i < ids.length → ∃ err,
      (imapHandleFirstMsg conf (env.Intake j i) (uint32 i)).1 = Outcome.ret err)
    (hwdog : ∀ j, env.Wdog j = WdogReply.accepted) :
    ∀ fuel start c err, (loopFrom conf env ids fuel start c).1 = Outcome.ret err →
      ∃ n, n < fuel ∧
        (∀ j, j < n → (idleSelect (env.Idle (start + j))).1 = Outcome.ret none) ∧
        (idleSelect (env.Idle (start + n))).1 = Outcome.ret err ∧ err ≠ none := by
  intro fuel
  induction fuel with
  | zero => intro start c err h; simp [loopFrom] at h
  | succ fuel ih =>
    intro start c err h
    obtain ⟨p1, _, _⟩ := handleRange_returns conf (env.Intake start) (List.range ids.length)
      (fun i hi => hret start i (List.mem_range.mp hi))
    obtain ⟨w1, _⟩ := imapIdleWait_outcome c (env.Idle start)
    rw [loopFrom] at h
    simp only [p1] at h
    cases hsel : (idleSelect (env.Idle start)).1 with
    | ret r =>
      rw [hsel] at w1
      cases r with
      | some e =>
        simp only [w1] at h
        refine ⟨0, Nat.succ_pos _, fun j hj => absurd hj (Nat.not_lt_zero j), ?_, ?_⟩
        · rw [Nat.add_zero, hsel]; exact h
        · cases h; simp
      | none =>
        simp only [w1, hwdog start] at h
        obtain ⟨n, hn, hok, hfail, hne⟩ := ih (start + 1) _ err h
        refine ⟨n + 1, by omega, ?_, ?_, hne⟩
        · intro j hj
          cases j with
          | zero => simpa using hsel
          | succ j =>
            rw [show start + (j + 1) = start + 1 + j by omega]
            exact hok j (by omega)
        · rwa [show start + (n + 1) = start + 1 + n by omega]
    | panic r => rw [hsel] at w1; simp [w1] at h
    | exit => rw [hsel] at w1; simp [w1] at h
    | hang => rw [hsel] at w1; simp [w1] at h
    | unfinished => rw [hsel] at w1; simp [w1] at h

theorem idleSelect_outcome (events : List IdleEvent) :
    (idleSelect events).1 = Outcome.hang ∨ ∃ r, (idleSelect events).1 = Outcome.ret r := by
  induction events with
  | nil => simp [idleSelect]
  | cons e es ih =>
    cases e with
    | update u => simpa [idleSelect] using ih
    | timeout => simpa [idleSelect] using ih
    | idleres r => simp [idleSelect]

theorem loopFrom_no_panic (conf : ConfImap) (env : Env) (ids : List Nat)
    (hret : ∀ j i, i < ids.length → ∃ err,
      (imapHandleFirstMsg conf (env.Intake j i) (uint32 i)).1 = Outcome.ret err)
    (hwdog : ∀ j, env.Wdog j = WdogReply.accepted) :
    ∀ fuel start c r, (loopFrom conf env ids fuel start c).1 ≠ Outcome.panic r := by
  intro fuel
  induction fuel with
  | zero => intro start c r; simp [loopFrom]
  | succ fuel ih =>
    intro start c r
    obtain ⟨p1, _, _⟩ := handleRange_returns conf (env.Intake start) (List.range ids.length)
      (fun i hi => hret start i (List.mem_range.mp hi))
    obtain ⟨w1, _⟩ := imapIdleWait_outcome c (env.Idle start)
    rw [loopFrom]
    simp only [p1]
    rcases idleSelect_outcome (env.Idle start) with h | ⟨x, h⟩
    · rw [h] at w1; simp [w1]
    · rw [h] at w1
      cases x with
      | some e => simp [w1]
      | none => simp only [w1, hwdog start]; exact ih _ _ r

theorem ImapLoopBody_open (conf : ConfImap) (env : Env) (fuel : Nat)
    (hdial : env.Dial = none) (hlogin : env.Login = none) (hselect : env.Select = none) :
    ImapLoopBody conf env fuel =
      ((loopFrom conf env (env.Search 0) fuel 0
          { Timeout := 2 * conf.IdleTimeout, Updates := none }).1,
        [Call.DialTLS (conf.Server ++ ":" ++ toString conf.Port),
         Call.Login conf.User conf.Password, Call.Select conf.Folder false,
         Call.Search ["ALL"]] ++
        (loopFrom conf env (env.Search 0) fuel 0
          { Timeout := 2 * conf.IdleTimeout, Updates := none }).2) := by
  simp [ImapLoopBody, imapGetClient, hdial, hlogin, hselect]

theorem ImapLoop_open (conf : ConfImap) (env : Env) (fuel : Nat)
    (hdial : env.Dial = none) (hlogin : env.Login = none) (hselect : env.Select = none)
    (hret : ∀ j i, i < (env.Search 0).length → ∃ err,
      (imapHandleFirstMsg conf (env.Intake j i) (uint32 i)).1 = Outcome.ret err)
    (hwdog : ∀ j, env.Wdog j = WdogReply.accepted) :
    (ImapLoop conf env fuel).1 =
      (loopFrom conf env (env.Search 0) fuel 0
        { Timeout := 2 * conf.IdleTimeout, Updates := none }).1 ∧
    (ImapLoop conf env fuel).2.filter isLoopMark =
      (loopFrom conf env (env.Search 0) fuel 0
        { Timeout := 2 * conf.IdleTimeout, Updates := none }).2.filter isLoopMark ∧
    (ImapLoop conf env fuel).2.filter isWdog =
      (loopFrom conf env (env.Search 0) fuel 0
        { Timeout := 2 * conf.IdleTimeout, Updates := none }).2.filter isWdog := by
  have hnp := loopFrom_no_panic conf env (env.Search 0) hret hwdog fuel 0
    { Timeout := 2 * conf.IdleTimeout, Updates := none }
  unfold ImapLoop
  rw [ImapLoopBody_open conf env fuel hdial hlogin hselect]
  cases h : (loopFrom conf env (env.Search 0) fuel 0
      { Timeout := 2 * conf.IdleTimeout, Updates := none }).1 with
  | panic r => exact absurd h (hnp r)
  | ret e => simp [List.filter_cons, isLoopMark, isWdog]
  | exit => simp [List.filter_cons, isLoopMark, isWdog]
  | hang => simp [List.filter_cons, isLoopMark, isWdog]
  | unfinished => simp [List.filter_cons, isLoopMark, isWdog]

/-- C7, amended. With the session open and the inbox selected, every pipeline run
returning (whatever error value it returns) and every send on the watchdog channel
accepted: after n outer iterations whose idle waits returned nil the loop is still
running, each iteration has made one pipeline call per work item followed by one idle
wait and one nil sent to the watchdog, so the watchdog has received exactly n nil
values; if the next idle wait returns the error e the loop returns e after one more pass
and idle wait without a further watchdog value; and the loop returns an error only when
an idle wait returned it. -/
theorem loop_iterations (conf : ConfImap) (env : Env)
    (hdial : env.Dial = none) (hlogin : env.Login = none) (hselect : env.Select = none)
    (hret : ∀ j i, i < (env.Search 0).length → ∃ err,
      (imapHandleFirstMsg conf (env.Intake j i) (uint32 i)).1 = Outcome.ret err)
    (hwdog : ∀ j, env.Wdog j = WdogReply.accepted) :
    (∀ n, (∀ j, j < n → (idleSelect (env.Idle j)).1 = Outcome.ret none) →
      (ImapLoop conf env n).1 = Outcome.unfinished ∧
      (ImapLoop conf env n).2.filter isLoopMark = completedMarks n (env.Search 0).length ∧
      (ImapLoop conf env n).2.filter isWdog = List.replicate n (Call.WdogSend none)) ∧
    (∀ n e fuel, (∀ j, j < n → (idleSelect (env.Idle j)).1 = Outcome.ret none) →
      (idleSelect (env.Idle n)).1 = Outcome.ret (some e) → n < fuel →
      (ImapLoop conf env fuel).1 = Outcome.ret (some e) ∧
      (ImapLoop conf env fuel).2.filter isLoopMark =
        completedMarks n (env.Search 0).length ++ passMarks (env.Search 0).length ∧
      (ImapLoop conf env fuel).2.filter isWdog = List.replicate n (Call.WdogSend none)) ∧
    (∀ fuel err, (ImapLoop conf env fuel).1 = Outcome.ret err →
      ∃ n, n < fuel ∧ (∀ j, j < n → (idleSelect (env.Idle j)).1 = Outcome.ret none) ∧
        (idleSelect (env.Idle n)).1 = Outcome.ret err ∧ err ≠ none) := by
  refine ⟨?_, ?_, ?_⟩
  · intro n hok
    obtain ⟨o1, o2, o3⟩ := ImapLoop_open conf env n hdial hlogin hselect hret hwdog
    rw [o1, o2, o3]
    exact loopFrom_completed conf env (env.Search 0) hret hwdog n 0 _
      (fun j hj => by rw [Nat.zero_add]; exact hok j hj)
  · intro n e fuel hok hfail hfuel
    obtain ⟨o1, o2, o3⟩ := ImapLoop_open conf env fuel hdial hlogin hselect hret hwdog
    rw [o1, o2, o3]
    exact loopFrom_fails conf env (env.Search 0) hret hwdog n 0 _ fuel e
      (fun j hj => by rw [Nat.zero_add]; exact hok j hj)
      (by rw [Nat.zero_add]; exact hfail) hfuel
  · intro fuel err h
    obtain ⟨o1, _, _⟩ := ImapLoop_open conf env fuel hdial hlogin hselect hret hwdog
    rw [o1] at h
    obtain ⟨n, hn, hok, hfail, hne⟩ :=
      loopFrom_ret_from_idle conf env (env.Search 0) hret hwdog fuel 0 _ err h
    refine ⟨n, hn, ?_, ?_, hne⟩
    · intro j hj
      have := hok j hj
      rwa [Nat.zero_add] at this
    · rwa [Nat.zero_add] at hfail

/-- Witness for the amended C7: two work items, the second of which ends with an error in
every pass; one completed iteration, then the idle wait fails. -/
theorem loop_iterations_witness :
    (imapHandleFirstMsg conf1000 (envTwoItems.Intake 0 1) (uint32 1)).1 =
      Outcome.ret (some "Couldn\x27t get first message raw") ∧
    (ImapLoop conf1000 envTwoItems 5).1 = Outcome.ret (some "EOF") ∧
    (ImapLoop conf1000 envTwoItems 5).2.filter isLoopMark =
      [Call.HandleFirstMsg 0, Call.HandleFirstMsg 1, Call.IdleWithFallback,
       Call.WdogSend none,
       Call.HandleFirstMsg 0, Call.HandleFirstMsg 1, Call.IdleWithFallback] ∧
    (ImapLoop conf1000 envTwoItems 5).2.filter isWdog = [Call.WdogSend none] :=
  ⟨by decide,
   (loop_iterations conf1000 envTwoItems rfl rfl rfl
    (fun _ i hi => by
      have hi2 : i = 0 ∨ i = 1 := by
        have : i < 2 := hi
        omega
      rcases hi2 with h | h
      · subst h; exact ⟨none, rfl⟩
      · subst h; exact ⟨some "Couldn\x27t get first message raw", rfl⟩)
    (fun _ => rfl)).2.1 1 "EOF" 5
    (fun j hj => by
      have hj0 : j = 0 := Nat.lt_one_iff.mp hj
      subst hj0
      decide)
    (by decide) (by decide)⟩

/-- C7, refuted as stated. With the session open, the inbox selected and two work items,
a first message without an envelope makes the pipeline panic; the deferred recovery of
`ImapLoop` returns an error after one pipeline call, with no idle wait started and
although every idle wait would have returned nil. And when nothing takes a value from
the watchdog channel, the first idle wait returns nil but the send blocks: the loop
hangs and the watchdog has received nothing. -/
theorem loop_panic_ends_pass :
    (envBareFirst.Dial = none ∧ envBareFirst.Login = none ∧ envBareFirst.Select = none ∧
      (envBareFirst.Search 0).length = 2 ∧
      (∀ n, (idleSelect (envBareFirst.Idle n)).1 = Outcome.ret none) ∧
      (∃ e, (ImapLoop conf1000 envBareFirst 5).1 = Outcome.ret (some e)) ∧
      (ImapLoop conf1000 envBareFirst 5).2.filter isLoopMark = [Call.HandleFirstMsg 0]) ∧
    (envWdogBlocked.Dial = none ∧ envWdogBlocked.Login = none ∧
      envWdogBlocked.Select = none ∧
      (idleSelect (envWdogBlocked.Idle 0)).1 = Outcome.ret none ∧
      (ImapLoop conf1000 envWdogBlocked 5).1 = Outcome.hang ∧
      (ImapLoop conf1000 envWdogBlocked 5).2.filter isLoopMark =
        [Call.HandleFirstMsg 0, Call.IdleWithFallback] ∧
      (ImapLoop conf1000 envWdogBlocked 5).2.filter isWdog = []) :=
  ⟨⟨rfl, rfl, rfl, rfl, fun _ => rfl, ⟨_, rfl⟩, by decide⟩,
   ⟨rfl, rfl, rfl, rfl, by decide, by decide, by decide⟩⟩

/-! ### Calls issued by the loop -/

theorem pipeline_is_loop_call (c : Call) (h : isPipelineCall c = true) : isLoopCall c = true := by
  simp [isLoopCall, h]

theorem handleRange_calls (conf : ConfImap) (answers : Nat → Answers) (mids : List Nat) :
    ∀ c ∈ (handleRange conf answers mids).2, isLoopCall c = true := by
  induction mids with
  | nil => simp [handleRange]
  | cons mid rest ih =>
    have hp : ∀ c ∈ (imapHandleFirstMsg conf (answers mid) (uint32 mid)).2,
        isLoopCall c = true := fun c hc =>
      pipeline_is_loop_call c (List.all_eq_true.mp (intake_calls conf (answers mid) _) c hc)
    intro c hc
    simp only [handleRange] at hc
    cases hrun : (imapHandleFirstMsg conf (answers mid) (uint32 mid)).1 <;>
      simp only [hrun, List.cons_append, List.mem_cons, List.mem_append] at hc <;>
      rcases hc with hc | hc
    · subst hc; rfl
    · rcases hc with hc | hc
      · exact hp c hc
      · exact ih c hc
    all_goals first
      | (subst hc; rfl)
      | exact hp c hc

theorem idle_calls (c : Client) (events : List IdleEvent) :
    ∀ x ∈ (imapIdleWait c events).2.2, isLoopCall x = true := by
  rw [(imapIdleWait_outcome c events).2]
  intro x hx
  rcases List.mem_cons.mp hx with h | h
  · subst h; rfl
  · rw [idleSelect_trace events x h]; rfl

theorem loopFrom_calls (conf : ConfImap) (env : Env) (ids : List Nat) :
    ∀ fuel start c, ∀ x ∈ (loopFrom conf env ids fuel start c).2, isLoopCall x = true := by
  intro fuel
  induction fuel with
  | zero => intro start c x hx; simp [loopFrom] at hx
  | succ fuel ih =>
    intro start c x hx
    have hp := handleRange_calls conf (env.Intake start) (List.range ids.length)
    have hw := idle_calls c (env.Idle start)
    rw [loopFrom] at hx
    cases hpass : (handleRange conf (env.Intake start) (List.range ids.length)).1 with
    | ret e =>
      simp only [hpass] at hx
      cases hidle : (imapIdleWait c (env.Idle start)).1 with
      | ret r =>
        cases r with
        | some err =>
          simp only [hidle, List.mem_append] at hx
          rcases hx with hx | hx
          · exact hp x hx
          · exact hw x hx
        | none =>
          cases hwd : env.Wdog start with
          | accepted =>
            simp only [hidle, hwd, List.mem_append, List.mem_singleton] at hx
            rcases hx with ((hx | hx) | hx) | hx
            · exact hp x hx
            · exact hw x hx
            · subst hx; rfl
            · exact ih _ _ x hx
          | blocked =>
            simp only [hidle, hwd, List.mem_append] at hx
            rcases hx with hx | hx
            · exact hp x hx
            · exact hw x hx
          | closed =>
            simp only [hidle, hwd, List.mem_append] at hx
            rcases hx with hx | hx
            · exact hp x hx
            · exact hw x hx
      | panic r =>
        simp only [hidle, List.mem_append] at hx
        rcases hx with hx | hx
        · exact hp x hx
        · exact hw x hx
      | exit =>
        simp only [hidle, List.mem_append] at hx
        rcases hx with hx | hx
        · exact hp x hx
        · exact hw x hx
      | hang =>
        simp only [hidle, List.mem_append] at hx
        rcases hx with hx | hx
        · exact hp x hx
        · exact hw x hx
      | unfinished =>
        simp only [hidle, List.mem_append] at hx
        rcases hx with hx | hx
        · exact hp x hx
        · exact hw x hx
    | panic r => simp only [hpass] at hx; exact hp x hx
    | exit => simp only [hpass] at hx; exact hp x hx
    | hang => simp only [hpass] at hx; exact hp x hx
    | unfinished => simp only [hpass] at hx; exact hp x hx

theorem ImapLoop_trace (conf : ConfImap) (env : Env) (fuel : Nat) :
    (ImapLoop conf env fuel).2 = (ImapLoopBody conf env fuel).2 := by
  unfold ImapLoop
  cases h : (ImapLoopBody conf env fuel).1 <;> simp [h]

theorem ImapLoopBody_trace (conf : ConfImap) (env : Env) (fuel : Nat) :
    ∃ pre rest, (ImapLoopBody conf env fuel).2 = pre ++ rest ∧
      (pre = [Call.DialTLS (conf.Server ++ ":" ++ toString conf.Port)] ∨
       pre = [Call.DialTLS (conf.Server ++ ":" ++ toString conf.Port),
         Call.Login conf.User conf.Password] ∨
       pre = [Call.DialTLS (conf.Server ++ ":" ++ toString conf.Port),
         Call.Login conf.User conf.Password, Call.Select conf.Folder false] ∨
       pre = [Call.DialTLS (conf.Server ++ ":" ++ toString conf.Port),
         Call.Login conf.User conf.Password, Call.Select conf.Folder false,
         Call.Search ["ALL"]]) ∧
      ∀ x ∈ rest, isLoopCall x = true := by
  cases hdial : env.Dial with
  | some e =>
    exact ⟨_, [], by simp [ImapLoopBody, imapGetClient, hdial], Or.inl rfl, by simp⟩
  | none =>
    cases hlogin : env.Login with
    | some e =>
      exact ⟨_, [], by simp [ImapLoopBody, imapGetClient, hdial, hlogin],
        Or.inr (Or.inl rfl), by simp⟩
    | none =>
      cases hselect : env.Select with
      | some e =>
        exact ⟨_, [], by simp [ImapLoopBody, imapGetClient, hdial, hlogin, hselect],
          Or.inr (Or.inr (Or.inl rfl)), by simp⟩
      | none =>
        refine ⟨_, _, congrArg Prod.snd (ImapLoopBody_open conf env fuel hdial hlogin hselect),
          Or.inr (Or.inr (Or.inr rfl)), ?_⟩
        exact loopFrom_calls conf env (env.Search 0) fuel 0 _

theorem loop_call_not_search (c : Call) (h : isLoopCall c = true) : isSearch c = false := by
  cases c <;> simp_all [isLoopCall, isPipelineCall, isLoopMark, isSearch]

theorem loop_call_not_logout (c : Call) (h : isLoopCall c = true) : c ≠ Call.Logout := by
  cases c <;> simp_all [isLoopCall, isPipelineCall, isLoopMark]

theorem intakeArgs_pipeline (conf : ConfImap) (a : Answers) (mId : Nat) :
    intakeArgs (imapHandleFirstMsg conf a mId).2 = [] := by
  unfold intakeArgs
  rw [List.filterMap_eq_nil_iff]
  intro c hc
  have := List.all_eq_true.mp (intake_calls conf a mId) c hc
  cases c <;> simp_all [isPipelineCall]

theorem intakeArgs_append (t u : List Call) :
    intakeArgs (t ++ u) = intakeArgs t ++ intakeArgs u := by
  simp [intakeArgs, List.filterMap_append]

theorem handleRange_args (conf : ConfImap) (answers : Nat → Answers) (mids : List Nat) :
    intakeArgs (handleRange conf answers mids).2 <+: mids.map (fun i => uint32 i) := by
  induction mids with
  | nil => simp [handleRange, intakeArgs]
  | cons mid rest ih =>
    have hp := intakeArgs_pipeline conf (answers mid) (uint32 mid)
    have hcons : ∀ t, intakeArgs (Call.HandleFirstMsg (uint32 mid) :: t) =
        uint32 mid :: intakeArgs t := fun t => by simp [intakeArgs, List.filterMap_cons]
    simp only [handleRange]
    cases hrun : (imapHandleFirstMsg conf (answers mid) (uint32 mid)).1 with
    | ret e =>
      simp only [List.cons_append, hcons, intakeArgs_append, hp, List.nil_append, List.map_cons]
      exact (List.prefix_cons_inj _).mpr ih
    | panic r =>
      simp only [hcons, hp, List.map_cons]
      exact (List.prefix_cons_inj _).mpr (List.nil_prefix)
    | exit =>
      simp only [hcons, hp, List.map_cons]
      exact (List.prefix_cons_inj _).mpr (List.nil_prefix)
    | hang =>
      simp only [hcons, hp, List.map_cons]
      exact (List.prefix_cons_inj _).mpr (List.nil_prefix)
    | unfinished =>
      simp only [hcons, hp, List.map_cons]
      exact (List.prefix_cons_inj _).mpr (List.nil_prefix)

/-! ### Work items of a pass -/

/-- C5 (defect of the code). The pass over the identifiers listed by the search hands the
positions 0, 1, ... of the list to the pipeline, not its elements: with the identifiers
7 and 9 listed, the pipeline is run for 0 and for 1; in general the arguments of a pass
are an initial segment of the positions. -/
theorem pass_visits_positions :
    envTwoIds.Search 0 = [7, 9] ∧
    intakeArgs (ImapLoop conf1000 envTwoIds 1).2 = [0, 1] ∧
    (∀ (conf : ConfImap) (answers : Nat → Answers) (ids : List Nat),
      intakeArgs (handleRange conf answers (List.range ids.length)).2 <+:
        (List.range ids.length).map (fun i => uint32 i)) :=
  ⟨rfl, by decide, fun conf answers ids => handleRange_args conf answers _⟩

/-- C6 (defect of the code). The search is issued once, before the outer loop: in a run
of two iterations, where a second search would list a new message, one search is issued
and the second iteration runs the pipeline for position 0 again; no run issues more
than one search. -/
theorem search_issued_once :
    envNewMail.Search 1 = [1, 2] ∧
    (ImapLoop conf1000 envNewMail 5).1 = Outcome.ret (some "EOF") ∧
    (ImapLoop conf1000 envNewMail 5).2.filter isSearch = [Call.Search ["ALL"]] ∧
    intakeArgs (ImapLoop conf1000 envNewMail 5).2 = [0, 0] ∧
    (∀ (conf : ConfImap) (env : Env) (fuel : Nat),
      ((ImapLoop conf env fuel).2.filter isSearch).length ≤ 1) := by
  refine ⟨rfl, by decide, by decide, by decide, ?_⟩
  intro conf env fuel
  obtain ⟨pre, rest, ht, hpre, hrest⟩ := ImapLoopBody_trace conf env fuel
  have hr : rest.filter isSearch = [] := by
    rw [List.filter_eq_nil_iff]
    intro c hc
    simp [loop_call_not_search c (hrest c hc)]
  rw [ImapLoop_trace, ht, List.filter_append, hr]
  rcases hpre with h | h | h | h <;> simp [h, List.filter_cons, isSearch]

/-! ### Release of the session -/

/-- C9 (defect of the code). No logout is ever issued: when the dial succeeds and the
login is refused, `ImapLoop` returns the login error after the two calls dial and login;
when the idle wait fails, the last call of the run is the long-poll; no run of
`ImapLoop` or `ImapTest` contains a logout. -/
theorem session_never_logged_out :
    ImapLoop conf1000 envLoginFails 3 =
      (Outcome.ret (some "imapGetClient login: bad credentials"),
        [Call.DialTLS "imap.example.org:993", Call.Login "u" "p"]) ∧
    (ImapLoop conf1000 envTwoIds 1).1 = Outcome.ret (some "EOF") ∧
    (ImapLoop conf1000 envTwoIds 1).2.getLast? = some Call.IdleWithFallback ∧
    (∀ (conf : ConfImap) (env : Env) (fuel : Nat),
      Call.Logout ∉ (ImapLoop conf env fuel).2) ∧
    (∀ (conf : ConfImap) (env : Env), Call.Logout ∉ (ImapTest conf env).2) := by
  refine ⟨by decide, by decide, by decide, ?_, ?_⟩
  · intro conf env fuel hmem
    obtain ⟨pre, rest, ht, hpre, hrest⟩ := ImapLoopBody_trace conf env fuel
    rw [ImapLoop_trace, ht, List.mem_append] at hmem
    rcases hmem with hm | hm
    · rcases hpre with h | h | h | h <;> simp [h] at hm
    · exact loop_call_not_logout _ (hrest _ hm) rfl
  · intro conf env
    unfold ImapTest imapGetClient
    cases env.Dial <;> cases env.Login <;> cases env.ListRes <;> simp

/-! ### The conversion of the size limit -/

theorem intake_gate (conf : ConfImap) (a : Answers) (mId : Nat)
    (msg : ImapMessage) (envelope : ImapEnvelope)
    (hmeta : a.FetchMeta = FetchReply.message msg) (henv : msg.Envelope = some envelope) :
    (imapHandleFirstMsg conf a mId).2.filter isBodyFetch = [] ↔
      tooBig conf msg.Size = true := by
  obtain ⟨fm, fb, gi, ⟨cp, st, ex⟩⟩ := a
  simp only at hmeta
  subst hmeta
  cases hbig : tooBig conf msg.Size with
  | true =>
    cases cp <;> cases st <;> cases ex <;>
      simp [imapHandleFirstMsg, imapMoveTo, isBodyFetch, metaItems, henv, hbig,
        List.filter_cons]
  | false =>
    cases fb with
    | failed e => simp [imapHandleFirstMsg, isBodyFetch, metaItems, henv, hbig, List.filter_cons]
    | closed => simp [imapHandleFirstMsg, isBodyFetch, metaItems, henv, hbig, List.filter_cons]
    | message msg2 =>
      cases hlit : msg2.Body with
      | none =>
        simp [imapHandleFirstMsg, isBodyFetch, metaItems, henv, hbig, hlit, List.filter_cons]
      | some r =>
        cases hre : (r.Read r.Len).2.2 with
        | some e =>
          simp [imapHandleFirstMsg, isBodyFetch, metaItems, henv, hbig, hlit, hre,
            List.filter_cons]
        | none =>
          by_cases hlen : r.Len = (r.Read r.Len).1
          · have hlen2 : (r.Read r.Len).1 = r.Len := hlen.symm
            cases gi <;> cases cp <;> cases st <;> cases ex <;>
              simp [imapHandleFirstMsg, imapMoveTo, isBodyFetch, metaItems, henv, hbig,
                hlit, hre, hlen2, List.filter_cons]
          · simp [imapHandleFirstMsg, isBodyFetch, metaItems, henv, hbig, hlit, hre, hlen,
              List.filter_cons]

/-- C10, refuted as stated, at two of the limits the claim names (a negative one, and one
of 2^32 or more). With the limit -1 a 100 byte message exceeds the limit but passes the
gate and is imported; with the limit 2^32 + 10 a 100 byte message is within the limit
but is stopped at the gate and relocated to the quarantine folder. -/
theorem size_gate_wraps :
    (((100 : Nat) : Int) > confNegative.MaxEmailSize ∧
      tooBig confNegative metaSmall.Size = false ∧
      (imapHandleFirstMsg confNegative answersImported 1).2.filter isImport =
        [Call.GmailImport [97, 98, 99]]) ∧
    (¬ (((100 : Nat) : Int) > confHuge.MaxEmailSize) ∧
      tooBig confHuge metaSmall.Size = true ∧
      (imapHandleFirstMsg confHuge answersImported 1).2.filter isImport = [] ∧
      (imapHandleFirstMsg confHuge answersImported 1).2.filter isRelocation =
        [Call.Copy [1] "Quarantine", Call.Store [1] FlagsOp.AddFlags false [DeletedFlag],
         Call.Expunge]) := by
  refine ⟨⟨by decide, by decide, by decide⟩, by decide, by decide, by decide, by decide⟩

/-- C10, amended. For a configured limit between 0 and 2^32 - 1 the gate decides by the
exact comparison of the size with the limit: the conversion of the limit to uint32
changes nothing, and a message with an envelope is stopped at the gate (neither fetched
in full nor imported) exactly when its size exceeds the limit. -/
theorem size_gate_exact_in_range (conf : ConfImap)
    (hlo : 0 ≤ conf.MaxEmailSize) (hhi : conf.MaxEmailSize < 4294967296) :
    (∀ mSize : Nat, tooBig conf mSize = true ↔ (mSize : Int) > conf.MaxEmailSize) ∧
    (∀ (a : Answers) (mId : Nat) (msg : ImapMessage) (envelope : ImapEnvelope),
      a.FetchMeta = FetchReply.message msg → msg.Envelope = some envelope →
      ((imapHandleFirstMsg conf a mId).2.filter isBodyFetch = [] ↔
        (msg.Size : Int) > conf.MaxEmailSize)) :=
  ⟨fun mSize => tooBig_iff_of_range conf mSize hlo hhi,
   fun a mId msg envelope hmeta henv =>
     (intake_gate conf a mId msg envelope hmeta henv).trans
       (tooBig_iff_of_range conf msg.Size hlo hhi)⟩

/-- Witness for the amended C10: under the limit 1000 a 5000 byte message is stopped and
a 100 byte message is not. -/
theorem size_gate_exact_in_range_witness :
    (0 ≤ conf1000.MaxEmailSize ∧ conf1000.MaxEmailSize < 4294967296) ∧
    (tooBig conf1000 100 = true ↔ ((100 : Nat) : Int) > conf1000.MaxEmailSize) ∧
    ((imapHandleFirstMsg conf1000 answersBig 2).2.filter isBodyFetch = [] ↔
      (metaBig.Size : Int) > conf1000.MaxEmailSize) :=
  ⟨⟨by decide, by decide⟩,
   (size_gate_exact_in_range conf1000 (by decide) (by decide)).1 100,
   (size_gate_exact_in_range conf1000 (by decide) (by decide)).2 answersBig 2 metaBig
     envPhotos rfl rfl⟩

end Imap2Gmail
